import Mathlib

/-!
Verification of the bounded-concurrency link-verification engine of
`app/qa.py` (classes `BuildTestFailure`, `BuildTestResult`, `BuildTest`,
`LinkTester`).

The Python code is shallowly embedded: the HTTP transport is a stub mapping
each URL to the behaviour its `session.get` exhibits, exceptions become
`Except`, printed lines become explicit `List String` outputs, and the
semaphore discipline of `fetch`/`get_failures` is modelled as a counting
transition system.
-/

namespace QA

/-- An HTTP response as observed through aiohttp: the requested url
(`response.url`) and the status code (`response.status`). -/
structure Response where
  url : String
  status : Nat
  deriving DecidableEq, Repr

/-- The transport-level exceptions of a `session.get`: the three kinds the
except clauses of `LinkTester.fetch` name — `aiohttp.ClientConnectorSSLError`
/ `ClientConnectorCertificateError`, `aiohttp.ClientResponseError` (which
carries a status), `asyncio.exceptions.TimeoutError` — plus the plain
connection failure `aiohttp.ClientConnectorError` (connection refused, DNS
failure), which none of the except clauses matches (`ClientConnectorError`
is a *superclass* of the caught SSL errors, not a subclass). -/
inductive TransportErr where
  | sslCertError (url : String)
  | clientResponseError (url : String) (status : Nat)
  | timeoutError (url : String)
  | clientConnectorError (url : String)
  deriving DecidableEq, Repr

/-- Outcome of the `ssl=False` retry a tolerant policy issues after a TLS
error: the insecure request can respond with a status, or itself fail with a
connection error. -/
inductive RetryOutcome where
  | ok (status : Nat)
  | connError
  deriving DecidableEq, Repr

/-- What the stubbed transport does when `session.get` is called on a url.
`sslError retry` means the TLS handshake with certificate validation fails,
and a request with `ssl=False` would instead behave as `retry`; `connError`
is a plain connection failure (no TLS involved). -/
inductive FetchBehavior where
  | ok (status : Nat)
  | sslError (retry : RetryOutcome)
  | httpError (status : Nat)
  | timeoutErr
  | connError
  deriving DecidableEq, Repr

/-- A transport stub: per-url behaviour, fixed for a run. -/
def Transport := String → FetchBehavior

/-- A record of one network operation actually issued: the url, the
`allow_redirects` flag and whether certificate validation was on
(`ssl=False` turns it off). -/
structure Request where
  url : String
  allowRedirects : Bool
  sslVerify : Bool
  deriving DecidableEq, Repr

/-- Errors that can escape `LinkTester.get_failures`: a transport exception
re-raised by `fetch`, or the `ValueError` that `asyncio.Semaphore(value)`
raises when `value` is negative. -/
inductive RunError where
  | transport (e : TransportErr)
  | valueError
  deriving DecidableEq, Repr

/-- `BuildTestResult` of `qa.py`: `passed` plus the `output` lines. -/
structure BuildTestResult where
  passed : Bool
  output : List String
  deriving DecidableEq, Repr

/-- One `session.get(url, allow_redirects=False, timeout=TIMEOUT_SEC, ssl=…)`
against the stub. With certificate validation on, an `sslError` url raises;
with `ssl=False` it behaves as its retry outcome. -/
def sessionGet (t : Transport) (url : String) (sslVerify : Bool) :
    Except TransportErr Response :=
  match t url with
  | .ok s => .ok ⟨url, s⟩
  | .sslError retry =>
      if sslVerify then .error (.sslCertError url)
      else
        match retry with
        | .ok rs => .ok ⟨url, rs⟩
        | .connError => .error (.clientConnectorError url)
  | .httpError s => .error (.clientResponseError url s)
  | .timeoutErr => .error (.timeoutError url)
  | .connError => .error (.clientConnectorError url)

/-- `LinkTester.fetch` (minus the semaphore, modelled separately): issue the
GET, and on each caught exception either degrade under `warn_only` or
re-raise.  A plain connection error is caught by no except clause and
always propagates, and the warn-mode `ssl=False` retry runs inside the SSL
handler, so its own failure propagates too.  Returns the list of network
operations issued together with the outcome: `some response`, `none`
(warn-mode print-and-fall-through for response errors and timeouts), or a
raised transport error. -/
def fetch (warnOnly : Bool) (t : Transport) (url : String) :
    List Request × Except TransportErr (Option Response) :=
  match t url with
  | .ok s => ([⟨url, false, true⟩], .ok (some ⟨url, s⟩))
  | .sslError retry =>
      if warnOnly then
        ([⟨url, false, true⟩, ⟨url, false, false⟩],
          match retry with
          | .ok rs => .ok (some ⟨url, rs⟩)
          | .connError => .error (.clientConnectorError url))
      else
        ([⟨url, false, true⟩], .error (.sslCertError url))
  | .httpError s =>
      if warnOnly then ([⟨url, false, true⟩], .ok none)
      else ([⟨url, false, true⟩], .error (.clientResponseError url s))
  | .timeoutErr =>
      if warnOnly then ([⟨url, false, true⟩], .ok none)
      else ([⟨url, false, true⟩], .error (.timeoutError url))
  | .connError => ([⟨url, false, true⟩], .error (.clientConnectorError url))

/-- Sequencing of `asyncio.gather` outcomes: the first raised exception
propagates, otherwise all results are collected in argument order. -/
def collect : List (Except TransportErr (Option Response)) →
    Except TransportErr (List (Option Response))
  | [] => .ok []
  | .error e :: _ => .error e
  | .ok r :: rest =>
      match collect rest with
      | .error e => .error e
      | .ok rs => .ok (r :: rs)

/-- `LinkTester.get_failures`: build the semaphore (raising `ValueError` for a
negative limit, as `asyncio.Semaphore` does), gather one `fetch` per link, and
keep the non-`None` responses whose status is not 200.  The first component
records every network operation the gathered fetches issue. -/
def getFailures (warnOnly : Bool) (concurrency : Int) (t : Transport)
    (links : List String) : List Request × Except RunError (List Response) :=
  if concurrency < 0 then ([], .error .valueError)
  else
    let fetched := links.map (fetch warnOnly t)
    ((fetched.map Prod.fst).flatten,
      match collect (fetched.map Prod.snd) with
      | .error e => .error (.transport e)
      | .ok rs => .ok ((rs.filterMap id).filter (fun r => r.status ≠ 200)))

/-- `strip_fragment_identifiers`: `link.split('#')[0]`, i.e. the prefix of
the url before its first `#` (the whole url when there is none). -/
def stripFragmentIdentifiers (link : String) : String :=
  ⟨link.data.takeWhile (fun c => c ≠ '#')⟩

/-- Python `set(...)` over the fragment-stripped links, as a duplicate-free
list (the iteration order of a `set` is unspecified and no claim depends on
the particular order chosen here). -/
def pySet : List String → List String
  | [] => []
  | x :: xs => if x ∈ pySet xs then pySet xs else x :: pySet xs

/-- The deduplicated url list `LinkTester._test` actually checks:
`set(strip_fragment_identifiers(link) for link in links.values())`. -/
def dedupedLinks (links : List String) : List String :=
  pySet (links.map stripFragmentIdentifiers)

/-- The diagnostic line `f'{fail.url}: {fail.status}'`. -/
def diagLine (r : Response) : String := s!"{r.url}: {r.status}"

/-- `LinkTester._test` on the url values of the link catalog: strip fragments,
deduplicate, run `get_failures`; under `warn_only` print each failure as an
additional warning and report success, otherwise report `passed` iff no
failures with one diagnostic line per failing response.  First component:
the warning lines printed; exceptions out of `asyncio.run` propagate. -/
def LinkTester.check (warnOnly : Bool) (concurrency : Int) (t : Transport)
    (links : List String) : List String × Except RunError BuildTestResult :=
  match getFailures warnOnly concurrency t (dedupedLinks links) with
  | (_, .error e) => ([], .error e)
  | (_, .ok fails) =>
      if warnOnly then (fails.map diagLine, .ok ⟨true, []⟩)
      else ([], .ok ⟨fails.isEmpty, fails.map diagLine⟩)

/-- The `BuildTestFailure` exception object (`raise BuildTestFailure()`). -/
inductive BuildTestFailure where
  | mk
  deriving DecidableEq, Repr

/-- `BuildTest.test`, given the `BuildTestResult` its `_test` produced: the
lines it prints, and `some` exception when it raises.  Diagnostics are
printed before `raise BuildTestFailure()`. -/
def BuildTest.test (name : String) (r : BuildTestResult) :
    List String × Option BuildTestFailure :=
  if !r.passed then
    ([s!"Testing {name}", "  - Fail!"] ++
      (if !r.output.isEmpty then "Output:" :: r.output.map (fun l => s!"  {l}")
       else []),
     some .mk)
  else ([s!"Testing {name}", "  - Pass"], none)

/-- What the caller of `LinkTester().test()` can observe besides normal
return: the dedicated `BuildTestFailure`, or an exception `_test` raised that
`test` has no handler for and which therefore propagates unwrapped. -/
inductive CallerSignal where
  | buildTestFailure
  | uncaughtRunError (e : RunError)
  deriving DecidableEq, Repr

/-- The propagated signal is a raw transport exception object (aiohttp /
asyncio error) rather than the dedicated failure exception. -/
def CallerSignal.isRawTransport : CallerSignal → Bool
  | .uncaughtRunError (.transport _) => true
  | _ => false

/-- The whole caller-facing run of the link check, `LinkTester().test()`:
`test` calls `_test()` first (so an exception it raises escapes before any
printing) and then applies the universal pass/fail logic. -/
def LinkTester.runCheck (warnOnly : Bool) (concurrency : Int) (t : Transport)
    (links : List String) : List String × Except CallerSignal Unit :=
  match LinkTester.check warnOnly concurrency t links with
  | (_, .error e) => ([], .error (.uncaughtRunError e))
  | (warns, .ok r) =>
      match BuildTest.test "Links" r with
      | (printed, some _) => (warns ++ printed, .error .buildTestFailure)
      | (printed, none) => (warns ++ printed, .ok ())

/-- `LinkTester` object state: the fields `__init__` stores. -/
structure LinkTester where
  concurrency : Int
  warnOnly : Bool
  deriving DecidableEq, Repr

/-- `LinkTester.__init__(self, concurrency=16, warn=False)`: stores its
arguments.  The body performs no validation, so construction never raises;
the `Except` return type only records that possibility. -/
def LinkTester.init (concurrency : Int) (warn : Bool) :
    Except String LinkTester :=
  .ok ⟨concurrency, warn⟩

/-- Number of network operations a full `_test` run issues (the
`session.get` calls of all gathered fetches). -/
def netOps (warnOnly : Bool) (concurrency : Int) (t : Transport)
    (links : List String) : Nat :=
  (getFailures warnOnly concurrency t (dedupedLinks links)).1.length

/-- The behaviour is the TLS/certificate handshake failure case. -/
def FetchBehavior.isSSL : FetchBehavior → Bool
  | .sslError _ => true
  | _ => false

/-- Behaviours whose exception escapes `fetch` even under the tolerant
policy, because no except clause handles it: a plain connection failure
(`aiohttp.ClientConnectorError` matches none of the caught classes), and a
TLS error whose `ssl=False` retry itself fails (the retry runs inside the
SSL except handler, with no further handler around it). -/
def FetchBehavior.uncaughtInWarnMode : FetchBehavior → Bool
  | .connError => true
  | .sslError .connError => true
  | _ => false

/-- The response the engine records for a url, if its fetch yields one
(directly, or via the tolerated TLS retry). -/
def recordedResponse (warnOnly : Bool) (t : Transport) (url : String) :
    Option Response :=
  match (fetch warnOnly t url).2 with
  | .ok r => r
  | .error _ => none

/-- The url's check produced a `Failure` in the spec's sense: a recorded
response with a status other than 200. -/
def producesFailure (warnOnly : Bool) (t : Transport) (url : String) : Bool :=
  match recordedResponse warnOnly t url with
  | some r => r.status ≠ 200
  | none => false

/-- The url's check hits a transport error the active policy does not
tolerate: in intolerant mode every transport-erroring behaviour, in warn
mode none. -/
def intolerableTransportError (warnOnly : Bool) (t : Transport)
    (url : String) : Bool :=
  !warnOnly &&
    (match t url with
     | .ok _ => false
     | _ => true)

/-- The Python exception classes relevant here, with inheritance as declared:
`class BuildTestFailure(BaseException)` in the source, and the builtin
`class Exception(BaseException)`. -/
inductive PyClass where
  | baseException
  | exception
  | buildTestFailure
  deriving DecidableEq, Repr

/-- Linearised base-class chain of each class (the class itself first). -/
def pyMro : PyClass → List PyClass
  | .baseException => [.baseException]
  | .exception => [.exception, .baseException]
  | .buildTestFailure => [.buildTestFailure, .baseException]

/-- `except handler:` catches a raised exception iff the handler class is in
the raised class's base-class chain. -/
def pyCatches (handler raised : PyClass) : Bool :=
  handler ∈ pyMro raised

/-- Abstract state of one run's semaphore discipline: `sem` free permits of
`asyncio.Semaphore(concurrency)`; the per-url `fetch` tasks are `pending`
(awaiting `async with lock`), `inFlight` (request issued, response awaited),
`done` (left the `async with` block normally) or `errored` (the request
raised and the `async with` exit released the permit). -/
structure GateState where
  sem : Nat
  pending : Nat
  inFlight : Nat
  done : Nat
  errored : Nat
  deriving DecidableEq, Repr

/-- One event-loop step of the gate discipline of `fetch`: a pending task
acquires a free permit and issues its request; an in-flight task's request
completes, or raises, and either exit of the `async with` block releases the
permit. -/
inductive GateStep : GateState → GateState → Prop
  | acquire (s p f d e : Nat) :
      GateStep ⟨s + 1, p + 1, f, d, e⟩ ⟨s, p, f + 1, d, e⟩
  | complete (s p f d e : Nat) :
      GateStep ⟨s, p, f + 1, d, e⟩ ⟨s + 1, p, f, d + 1, e⟩
  | raised (s p f d e : Nat) :
      GateStep ⟨s, p, f + 1, d, e⟩ ⟨s + 1, p, f, d, e + 1⟩

/-- Initial state of a run over `m` urls with `Semaphore(n)`. -/
def GateState.start (n m : Nat) : GateState := ⟨n, m, 0, 0, 0⟩

/-- States a run with `Semaphore(n)` over `m` urls can reach. -/
def GateReachable (n m : Nat) (st : GateState) : Prop :=
  Relation.ReflTransGen GateStep (GateState.start n m) st

/-- `asyncio.gather` slot-filling: tasks are indexed by argument position;
`order` is the order in which the event loop completes them; each completion
stores its value in its own slot, so the returned list is in argument
order. -/
def fillByOrder {α : Type} (tasks : List α) (order : List Nat) :
    List (Option α) :=
  order.foldl (fun acc i => acc.set i tasks[i]?)
    (List.replicate tasks.length none)

/-- `LinkTester._test` with the event-loop completion order of the gathered
fetches made explicit. -/
def LinkTester.checkWithOrder (warnOnly : Bool) (concurrency : Int)
    (t : Transport) (links : List String) (order : List Nat) :
    List String × Except RunError BuildTestResult :=
  if concurrency < 0 then ([], .error .valueError)
  else
    let outcomes := (dedupedLinks links).map (fun u => (fetch warnOnly t u).2)
    let gathered := (fillByOrder outcomes order).map (fun o => o.getD (.ok none))
    match collect gathered with
    | .error e => ([], .error (.transport e))
    | .ok rs =>
        let fails := (rs.filterMap id).filter (fun r => r.status ≠ 200)
        if warnOnly then (fails.map diagLine, .ok ⟨true, []⟩)
        else ([], .ok ⟨fails.isEmpty, fails.map diagLine⟩)

/-! Concrete transport stubs used in witnesses and counterexamples. -/

/-- Every url responds 200. -/
def okStub : Transport := fun _ => .ok 200

/-- Every url responds 404. -/
def all404 : Transport := fun _ => .ok 404

/-- Url `B` responds 404, every other url 200. -/
def stub404 : Transport := fun u => if u = "B" then .ok 404 else .ok 200

/-- Every url fails TLS validation; the insecure retry responds 200. -/
def sslStub : Transport := fun _ => .sslError (.ok 200)

/-- Every fetch times out. -/
def timeoutStub : Transport := fun _ => .timeoutErr

/-- Every url fails with a plain connection error. -/
def connStub : Transport := fun _ => .connError

/-- Every url responds with a 301 redirect. -/
def redirStub : Transport := fun _ => .ok 301

/-! Helper lemmas about the embedded engine. -/

/-- In warn mode a fetch on a behaviour some except clause handles does not
raise: its outcome is exactly the recorded response (possibly `none`). -/
lemma fetch_warn_snd (t : Transport) (u : String)
    (hcls : (t u).uncaughtInWarnMode = false) :
    (fetch true t u).2 = .ok (recordedResponse true t u) := by
  cases h : t u
  case sslError retry =>
      cases retry
      case ok rs => simp [fetch, recordedResponse, h]
      case connError =>
          rw [h] at hcls
          simp [FetchBehavior.uncaughtInWarnMode] at hcls
  case connError =>
      rw [h] at hcls
      simp [FetchBehavior.uncaughtInWarnMode] at hcls
  all_goals simp [fetch, recordedResponse, h]

/-- The only exceptions escaping a tolerant fetch are raw connection
errors: an uncaught `ClientConnectorError`, or the insecure TLS retry
itself failing inside the SSL handler. -/
lemma fetch_warn_error {t : Transport} {u : String} {e : TransportErr}
    (h : (fetch true t u).2 = .error e) :
    e = .clientConnectorError u ∧ (t u).uncaughtInWarnMode = true := by
  cases h' : t u
  case sslError retry =>
      cases retry
      case ok rs => simp [fetch, h'] at h
      case connError =>
          simp only [fetch, h', if_true] at h
          injection h with h2
          exact ⟨h2.symm, rfl⟩
  case connError =>
      simp only [fetch, h'] at h
      injection h with h2
      exact ⟨h2.symm, rfl⟩
  all_goals simp [fetch, h'] at h

/-- Successful `collect` means every gathered outcome was a success, in
order. -/
lemma collect_eq_ok :
    ∀ {es : List (Except TransportErr (Option Response))}
      {rs : List (Option Response)},
      collect es = .ok rs → es = rs.map Except.ok := by
  intro es
  induction es with
  | nil =>
      intro rs h
      simp only [collect] at h
      cases h
      rfl
  | cons a as ih =>
      intro rs h
      cases a with
      | error e => simp [collect] at h
      | ok r =>
          simp only [collect] at h
          cases hrest : collect as with
          | error e => rw [hrest] at h; cases h
          | ok rs' =>
              rw [hrest] at h
              cases h
              simpa using ih hrest

/-- Collecting a list of successes succeeds with exactly that list. -/
lemma collect_map_ok (rs : List (Option Response)) :
    collect (rs.map Except.ok) = .ok rs := by
  induction rs with
  | nil => rfl
  | cons r rest ih => simp [collect, ih]

/-- If any gathered fetch raised, `collect` propagates some raised error. -/
lemma collect_error_of_mem (f : String → Except TransportErr (Option Response))
    (l : List String) (u : String) (hu : u ∈ l) (e : TransportErr)
    (hf : f u = .error e) : ∃ e', collect (l.map f) = .error e' := by
  induction l with
  | nil => cases hu
  | cons a as ih =>
      rcases List.mem_cons.mp hu with rfl | hu'
      · exact ⟨e, by simp [collect, hf]⟩
      · cases hfa : f a with
        | error e'' => exact ⟨e'', by simp [collect, hfa]⟩
        | ok r =>
            obtain ⟨e', he'⟩ := ih hu'
            exact ⟨e', by simp [collect, hfa, he']⟩

/-- The gate invariant of a run: free permits plus in-flight requests always
equal the semaphore's initial capacity. -/
lemma gateReachable_sem_add_inFlight {n m : Nat} {st : GateState}
    (h : GateReachable n m st) : st.sem + st.inFlight = n := by
  induction h with
  | refl => simp [GateState.start]
  | tail _ step ih => cases step <;> simp_all <;> omega

/-- C2: for every run with concurrency limit N, every reachable state of the
gate discipline has at most N requests in flight: the semaphore is acquired
before each request is issued and released after it completes. -/
theorem concurrency_bound (n m : Nat) (st : GateState)
    (h : GateReachable n m st) : st.inFlight ≤ n := by
  have := gateReachable_sem_add_inFlight h
  omega

/-- Witness for `concurrency_bound`: with `Semaphore(2)` over three urls, the
state reached after two admissions is reachable and holds the bound. -/
theorem concurrency_bound_witness :
    GateReachable 2 3 ⟨0, 1, 2, 0, 0⟩ ∧
      (⟨0, 1, 2, 0, 0⟩ : GateState).inFlight ≤ 2 := by
  have hreach : GateReachable 2 3 ⟨0, 1, 2, 0, 0⟩ :=
    Relation.ReflTransGen.tail
      (Relation.ReflTransGen.tail Relation.ReflTransGen.refl
        (GateStep.acquire 1 2 0 0 0))
      (GateStep.acquire 0 1 1 0 0)
  exact ⟨hreach, concurrency_bound 2 3 _ hreach⟩

/-- C8: the concurrency gate is released on every exit path of a per-url
fetch, including raising ones: in every reachable state free permits plus
in-flight requests equal the initial capacity, so whenever no request is in
flight the full capacity is available again — no capacity is permanently
lost after a failure. -/
theorem gate_released_on_every_exit (n m : Nat) (st : GateState)
    (h : GateReachable n m st) :
    st.sem + st.inFlight = n ∧ (st.inFlight = 0 → st.sem = n) := by
  have hinv := gateReachable_sem_add_inFlight h
  exact ⟨hinv, fun h0 => by omega⟩

/-- Witness for `gate_released_on_every_exit`: a two-url run with
`Semaphore(1)` in which the first request raises; after both tasks exit the
full capacity is back. -/
theorem gate_released_on_every_exit_witness :
    GateReachable 1 2 ⟨1, 0, 0, 1, 1⟩ ∧
      ((⟨1, 0, 0, 1, 1⟩ : GateState).sem +
          (⟨1, 0, 0, 1, 1⟩ : GateState).inFlight = 1 ∧
        ((⟨1, 0, 0, 1, 1⟩ : GateState).inFlight = 0 →
          (⟨1, 0, 0, 1, 1⟩ : GateState).sem = 1)) := by
  have hreach : GateReachable 1 2 ⟨1, 0, 0, 1, 1⟩ :=
    Relation.ReflTransGen.tail
      (Relation.ReflTransGen.tail
        (Relation.ReflTransGen.tail
          (Relation.ReflTransGen.tail Relation.ReflTransGen.refl
            (GateStep.acquire 0 1 0 0 0))
          (GateStep.raised 0 1 0 0 0))
        (GateStep.acquire 0 0 0 0 1))
      (GateStep.complete 0 0 0 0 1)
  exact ⟨hreach, gate_released_on_every_exit 1 2 _ hreach⟩

/-- C10: the universal wrapper raises `BuildTestFailure` exactly when the
check's result has `passed = false`, each diagnostic line is printed before
the raise, and `BuildTestFailure` derives from `BaseException` but not from
`Exception`, so a generic `except Exception:` handler does not catch it. -/
theorem build_test_failure_semantics (name : String) (r : BuildTestResult) :
    ((BuildTest.test name r).2.isSome = true ↔ r.passed = false)
    ∧ (r.passed = false →
        ∀ l ∈ r.output, s!"  {l}" ∈ (BuildTest.test name r).1)
    ∧ pyCatches .exception .buildTestFailure = false
    ∧ pyCatches .baseException .buildTestFailure = true := by
  refine ⟨?_, ?_, by decide, by decide⟩
  · cases hp : r.passed <;> simp [BuildTest.test, hp]
  · intro hp l hl
    have hne : r.output.isEmpty = false := by
      cases hout : r.output with
      | nil => rw [hout] at hl; cases hl
      | cons a as => rfl
    simp [BuildTest.test, hp, hne]
    exact Or.inr (Or.inr (Or.inr ⟨l, hl, rfl⟩))

/-- Witness for `build_test_failure_semantics` at a concrete failing
result: the diagnostic is printed and the failure exception is raised. -/
theorem build_test_failure_semantics_witness :
    (⟨false, ["B: 404"]⟩ : BuildTestResult).passed = false ∧
      "  B: 404" ∈ (BuildTest.test "Links" ⟨false, ["B: 404"]⟩).1 ∧
      (BuildTest.test "Links" ⟨false, ["B: 404"]⟩).2.isSome = true := by
  have h := build_test_failure_semantics "Links" ⟨false, ["B: 404"]⟩
  exact ⟨rfl, h.2.1 rfl "B: 404" (by simp), h.1.mpr rfl⟩

/-- Requests a single `fetch` issues never follow redirects. -/
lemma fetch_allowRedirects (w : Bool) (t : Transport) (u : String) :
    ∀ req ∈ (fetch w t u).1, req.allowRedirects = false := by
  intro req hreq
  cases h : t u <;> cases w <;> simp [fetch, h] at hreq <;>
    rcases hreq with rfl | rfl <;> rfl

/-- C6: requests are issued with redirects disabled; only an exact 200
status is a success, so a 3xx response is a `Failure` like any other
non-200 status (statuses `{A: 200, B: 404, C: 200}` give `passed = false`
with diagnostics `["B: 404"]`, and a lone 301 gives `passed = false`); an
empty url set passes trivially with empty diagnostics and zero network
operations. -/
theorem redirects_disabled_and_exact_200 :
    (∀ (w : Bool) (c : Int) (t : Transport) (links : List String),
        ∀ req ∈ (getFailures w c t links).1, req.allowRedirects = false)
    ∧ LinkTester.check false 16 stub404 ["A", "B", "C"] =
        ([], .ok ⟨false, ["B: 404"]⟩)
    ∧ LinkTester.check false 16 redirStub ["R"] = ([], .ok ⟨false, ["R: 301"]⟩)
    ∧ (∀ (w : Bool) (c : Int) (t : Transport), 0 ≤ c →
        LinkTester.check w c t [] = ([], .ok ⟨true, []⟩) ∧ netOps w c t [] = 0) := by
  refine ⟨?_, rfl, rfl, ?_⟩
  · intro w c t links req hreq
    by_cases hc : c < 0
    · simp [getFailures, hc] at hreq
    · simp only [getFailures, hc, if_false] at hreq
      rw [List.map_map, List.mem_flatten] at hreq
      obtain ⟨reqs, hreqs, hmem⟩ := hreq
      rw [List.mem_map] at hreqs
      obtain ⟨u, _, rfl⟩ := hreqs
      exact fetch_allowRedirects w t u req hmem
  · intro w c t hc
    have hnc : ¬ c < 0 := not_lt.mpr hc
    constructor
    · cases w <;>
        simp [LinkTester.check, getFailures, dedupedLinks, pySet, collect, hnc]
    · simp [netOps, getFailures, dedupedLinks, pySet, hnc]

/-- Witness for `redirects_disabled_and_exact_200` at concrete inputs. -/
theorem redirects_disabled_and_exact_200_witness :
    ((⟨"A", false, true⟩ : Request) ∈ (getFailures false 16 stub404 ["A"]).1 ∧
        (⟨"A", false, true⟩ : Request).allowRedirects = false)
    ∧ ((0 : Int) ≤ 16 ∧ LinkTester.check true 16 stub404 [] = ([], .ok ⟨true, []⟩)) := by
  have h := redirects_disabled_and_exact_200
  refine ⟨⟨by decide, h.1 false 16 stub404 ["A"] _ (by decide)⟩,
    by decide, (h.2.2.2 true 16 stub404 (by decide)).1⟩

/-- C4: on a TLS/certificate validation error, a tolerant policy retries the
url exactly once with certificate validation disabled and uses the retry's
outcome, while an intolerant policy re-raises, so a run containing such a
url aborts with a fatal transport error instead of returning a result. -/
theorem tls_retry_and_fatal_abort (t : Transport) (url : String) (rs : Nat)
    (h : t url = .sslError (.ok rs)) :
    fetch true t url =
      ([⟨url, false, true⟩, ⟨url, false, false⟩], .ok (some ⟨url, rs⟩))
    ∧ ∀ (c : Int) (links : List String), 0 ≤ c → url ∈ dedupedLinks links →
        ∃ e, (LinkTester.check false c t links).2 = .error (.transport e) := by
  constructor
  · simp [fetch, h]
  · intro c links hc hmem
    obtain ⟨e', he'⟩ :=
      collect_error_of_mem (fun u => (fetch false t u).2) (dedupedLinks links)
        url hmem (.sslCertError url) (by simp [fetch, h])
    have hnc : ¬ c < 0 := not_lt.mpr hc
    refine ⟨e', ?_⟩
    have he2 : collect (List.map (Prod.snd ∘ fetch false t) (dedupedLinks links)) =
        Except.error e' := he'
    simp [LinkTester.check, getFailures, hnc, he2]

/-- Witness for `tls_retry_and_fatal_abort` on a concrete TLS-erroring
url. -/
theorem tls_retry_and_fatal_abort_witness :
    sslStub "u" = .sslError (.ok 200)
    ∧ fetch true sslStub "u" =
        ([⟨"u", false, true⟩, ⟨"u", false, false⟩], .ok (some ⟨"u", 200⟩))
    ∧ ((0 : Int) ≤ 16 ∧ "u" ∈ dedupedLinks ["u"])
    ∧ ∃ e, (LinkTester.check false 16 sslStub ["u"]).2 = .error (.transport e) := by
  have h := tls_retry_and_fatal_abort sslStub "u" 200 rfl
  exact ⟨rfl, h.1, ⟨by decide, by decide⟩, h.2 16 ["u"] (by decide) (by decide)⟩

/-- A single fetch issues one network operation, except for the tolerated
TLS retry which issues a second one. -/
lemma fetch_reqs_length (w : Bool) (t : Transport) (u : String) :
    (fetch w t u).1.length = if w && (t u).isSSL then 2 else 1 := by
  cases h : t u <;> cases w <;> simp [fetch, h, FetchBehavior.isSSL]

/-- Total network operations of a gathered batch over a url list. -/
lemma reqs_flatten_length (w : Bool) (t : Transport) (l : List String) :
    ((l.map (fetch w t)).map Prod.fst).flatten.length =
      l.length + (if w then (l.filter (fun u => (t u).isSSL)).length else 0) := by
  induction l with
  | nil => simp
  | cons a as ih =>
      have hfa := fetch_reqs_length w t a
      simp only [List.map_cons, List.flatten_cons, List.length_append, ih,
        List.filter_cons, List.length_cons]
      cases w <;> cases hssl : (t a).isSSL <;> simp [hfa, hssl] <;> omega

/-- Counterexample to C3 as stated: in tolerant mode a TLS-erroring url
causes two network operations (the insecure retry), exceeding the number of
distinct fragment-stripped urls. -/
theorem netOps_ne_distinct_on_tolerated_tls :
    netOps true 16 sslStub ["https://x/y"] = 2
    ∧ (dedupedLinks ["https://x/y"]).length = 1
    ∧ netOps true 16 sslStub ["https://x/y"] ≠
        (dedupedLinks ["https://x/y"]).length := by
  exact ⟨rfl, rfl, by decide⟩

/-- C3 (amended): the number of network operations issued equals the number
of distinct urls after fragment-stripping and dedup, plus one extra
operation per distinct url whose fetch hits a TLS error in tolerant mode
(the insecure retry); two urls identical except for a trailing fragment
cause exactly one network operation. -/
theorem netOps_eq_distinct_plus_ssl_retries :
    (∀ (w : Bool) (c : Int) (t : Transport) (links : List String), 0 ≤ c →
        netOps w c t links =
          (dedupedLinks links).length +
            (if w then
                ((dedupedLinks links).filter (fun u => (t u).isSSL)).length
              else 0))
    ∧ netOps false 16 okStub ["https://x/y#a", "https://x/y#b"] = 1 := by
  constructor
  · intro w c t links hc
    have hnc : ¬ c < 0 := not_lt.mpr hc
    simp only [netOps, getFailures, hnc, if_false]
    exact reqs_flatten_length w t (dedupedLinks links)
  · rfl

/-- Witness for `netOps_eq_distinct_plus_ssl_retries` on a concrete tolerant
run with a TLS-erroring url. -/
theorem netOps_eq_distinct_plus_ssl_retries_witness :
    (0 : Int) ≤ 16 ∧
      netOps true 16 sslStub ["https://x/y"] =
        (dedupedLinks ["https://x/y"]).length +
          (if true then
              ((dedupedLinks ["https://x/y"]).filter
                  (fun u => (sslStub u).isSSL)).length
            else 0) := by
  exact ⟨by decide,
    netOps_eq_distinct_plus_ssl_retries.1 true 16 sslStub ["https://x/y"]
      (by decide)⟩

/-- Counterexample to C9 as stated: constructing the link tester with a
non-positive concurrency limit succeeds (no validation in `__init__`), and
the rejection happens only at runtime of the verification run, when
`asyncio.Semaphore(-1)` raises `ValueError`. -/
theorem nonpositive_concurrency_accepted_at_construction :
    LinkTester.init (-1) false = .ok ⟨-1, false⟩
    ∧ (LinkTester.check false (-1) okStub ["u"]).2 = .error .valueError :=
  ⟨rfl, rfl⟩

/-- C9 (amended): construction of the link tester accepts any concurrency
value without validation; a negative limit is rejected only at runtime, when
the run constructs the semaphore, and with a zero limit the gate admits no
request at all, so the run never progresses. -/
theorem policy_validation_deferred_to_runtime :
    (∀ (c : Int) (w : Bool), LinkTester.init c w = .ok ⟨c, w⟩)
    ∧ (∀ (c : Int) (w : Bool) (t : Transport) (links : List String), c < 0 →
        (LinkTester.check w c t links).2 = .error .valueError)
    ∧ (∀ (m : Nat) (st : GateState), GateReachable 0 m st →
        st = GateState.start 0 m) := by
  refine ⟨fun c w => rfl, ?_, ?_⟩
  · intro c w t links hneg
    simp [LinkTester.check, getFailures, hneg]
  · intro m st h
    induction h with
    | refl => rfl
    | tail hr step ih =>
        subst ih
        cases step

/-- Witness for `policy_validation_deferred_to_runtime`: a negative limit is
only rejected when the run starts, and the initial zero-capacity gate state
is reachable. -/
theorem policy_validation_deferred_to_runtime_witness :
    ((-1 : Int) < 0 ∧
        (LinkTester.check true (-1) okStub ["u"]).2 = .error .valueError)
    ∧ GateReachable 0 5 (GateState.start 0 5)
    ∧ GateState.start 0 5 = GateState.start 0 5 := by
  have h := policy_validation_deferred_to_runtime
  exact ⟨⟨by decide, h.2.1 (-1) true okStub ["u"] (by decide)⟩,
    Relation.ReflTransGen.refl, h.2.2 5 _ Relation.ReflTransGen.refl⟩

/-- `get_failures` in warn mode, when every url's behaviour is one the
except clauses handle: nothing is raised and the failures are exactly the
recorded non-200 responses. -/
lemma getFailures_snd_warn (c : Int) (t : Transport) (l : List String)
    (hc : 0 ≤ c) (hcls : ∀ u ∈ l, (t u).uncaughtInWarnMode = false) :
    (getFailures true c t l).2 =
      .ok (((l.map (recordedResponse true t)).filterMap id).filter
            (fun r => r.status ≠ 200)) := by
  have hnc : ¬ c < 0 := not_lt.mpr hc
  have hmap : l.map (Prod.snd ∘ fetch true t) =
      (l.map (recordedResponse true t)).map Except.ok := by
    rw [List.map_map]
    exact List.map_congr_left (fun a ha => fetch_warn_snd t a (hcls a ha))
  simp only [getFailures, hnc, if_false, List.map_map]
  rw [hmap, collect_map_ok]

/-- `_test` on a successfully gathered failure list. -/
lemma check_eq_of_getFailures_ok {w : Bool} {c : Int} {t : Transport}
    {links : List String} {fails : List Response}
    (h : (getFailures w c t (dedupedLinks links)).2 = .ok fails) :
    LinkTester.check w c t links =
      if w then (fails.map diagLine, .ok ⟨true, []⟩)
      else ([], .ok ⟨fails.isEmpty, fails.map diagLine⟩) := by
  unfold LinkTester.check
  rcases hpair : getFailures w c t (dedupedLinks links) with ⟨reqs, res⟩
  rw [hpair] at h
  simp only at h
  subst h
  rfl

/-- `_test` propagates whatever `get_failures` raised. -/
lemma check_eq_of_getFailures_error {w : Bool} {c : Int} {t : Transport}
    {links : List String} {e : RunError}
    (h : (getFailures w c t (dedupedLinks links)).2 = .error e) :
    LinkTester.check w c t links = ([], .error e) := by
  unfold LinkTester.check
  rcases hpair : getFailures w c t (dedupedLinks links) with ⟨reqs, res⟩
  rw [hpair] at h
  simp only at h
  subst h
  rfl

/-- With a valid semaphore, the only errors `get_failures` raises are
transport errors. -/
lemma getFailures_error_transport {w : Bool} {c : Int} {t : Transport}
    {l : List String} {e : RunError} (hc : 0 ≤ c)
    (h : (getFailures w c t l).2 = .error e) : ∃ e', e = .transport e' := by
  have hnc : ¬ c < 0 := not_lt.mpr hc
  simp only [getFailures, hnc, if_false] at h
  cases hcol : collect ((l.map (fetch w t)).map Prod.snd) with
  | error e'' =>
      rw [hcol] at h
      injection h with h2
      exact ⟨e'', h2.symm⟩
  | ok rs =>
      rw [hcol] at h
      exact Except.noConfusion h

/-- Counterexample to C5 as stated: under the intolerant policy a per-url
timeout escapes `LinkTester().test()` as the raw transport exception, not as
a wrapped "verification aborted" signal. -/
theorem raw_transport_exception_escapes :
    (LinkTester.runCheck false 16 timeoutStub ["u"]).2 =
      .error (.uncaughtRunError (.transport (.timeoutError "u")))
    ∧ CallerSignal.isRawTransport
        (.uncaughtRunError (.transport (.timeoutError "u"))) = true :=
  ⟨rfl, rfl⟩

/-- `collect` propagates an exception one of the gathered coroutines
raised. -/
lemma collect_error_mem :
    ∀ {es : List (Except TransportErr (Option Response))} {e : TransportErr},
      collect es = .error e → Except.error e ∈ es := by
  intro es
  induction es with
  | nil => intro e h; exact Except.noConfusion h
  | cons a as ih =>
      intro e h
      cases a with
      | error e' =>
          simp only [collect] at h
          injection h with h2
          rw [h2]
          exact List.mem_cons_self _ _
      | ok r =>
          simp only [collect] at h
          cases hrest : collect as with
          | error e'' =>
              rw [hrest] at h
              injection h with h2
              subst h2
              exact List.mem_cons_of_mem _ (ih hrest)
          | ok rs =>
              rw [hrest] at h
              exact Except.noConfusion h

/-- Anything `get_failures` raises in warn mode is a raw connection error
from a url whose exception no except clause handles. -/
lemma getFailures_warn_error {c : Int} {t : Transport} {l : List String}
    {er : RunError} (hc : 0 ≤ c)
    (h : (getFailures true c t l).2 = .error er) :
    ∃ u, u ∈ l ∧ er = .transport (.clientConnectorError u) ∧
      (t u).uncaughtInWarnMode = true := by
  have hnc : ¬ c < 0 := not_lt.mpr hc
  simp only [getFailures, hnc, if_false] at h
  cases hcol : collect ((l.map (fetch true t)).map Prod.snd) with
  | error e =>
      rw [hcol] at h
      injection h with h2
      have hmem := collect_error_mem hcol
      rw [List.map_map] at hmem
      obtain ⟨u, hu, hequ⟩ := List.mem_map.mp hmem
      obtain ⟨he, hunc⟩ :=
        fetch_warn_error (hequ : (fetch true t u).2 = .error e)
      exact ⟨u, hu, by rw [← h2, he], hunc⟩
  | ok rs =>
      rw [hcol] at h
      exact Except.noConfusion h

/-- C5 (amended): only TLS/certificate errors, HTTP response errors and
timeouts are caught and classified inside the engine; a tolerant run whose
urls hit only those classified kinds degrades them to warnings and returns
normally, but a plain connection failure — matched by no except clause —
or a failing insecure TLS retry escapes to the caller as the raw transport
exception even under the tolerant policy, and under the intolerant policy
every transport error is re-raised raw; so the caller observes a
CheckResult-driven outcome (normal return or the distinguishable
`BuildTestFailure`) or the raw transport exception itself as the abort
signal. -/
theorem caller_signal_classification :
    (∀ (t : Transport) (u : String), (t u).uncaughtInWarnMode = false →
        ∃ o, (fetch true t u).2 = .ok o)
    ∧ (∀ (c : Int) (t : Transport) (links : List String), 0 ≤ c →
        (∀ u ∈ dedupedLinks links, (t u).uncaughtInWarnMode = false) →
        (LinkTester.runCheck true c t links).2 = .ok ())
    ∧ (∀ (c : Int) (t : Transport) (links : List String) (sig : CallerSignal),
        0 ≤ c → (LinkTester.runCheck true c t links).2 = .error sig →
        ∃ u, u ∈ dedupedLinks links ∧
          sig = .uncaughtRunError (.transport (.clientConnectorError u)) ∧
          CallerSignal.isRawTransport sig = true ∧
          (t u).uncaughtInWarnMode = true)
    ∧ (∀ (c : Int) (t : Transport) (links : List String) (sig : CallerSignal),
        0 ≤ c → (LinkTester.runCheck false c t links).2 = .error sig →
        sig = .buildTestFailure ∨
          ∃ e, sig = .uncaughtRunError (.transport e) ∧
            CallerSignal.isRawTransport sig = true) := by
  refine ⟨?_, ?_, ?_, ?_⟩
  · intro t u hunc
    exact ⟨recordedResponse true t u, fetch_warn_snd t u hunc⟩
  · intro c t links hc hcls
    have hchk := check_eq_of_getFailures_ok
      (getFailures_snd_warn c t (dedupedLinks links) hc hcls)
    simp only [if_true] at hchk
    simp [LinkTester.runCheck, hchk, BuildTest.test]
  · intro c t links sig hc hsig
    cases hgf : (getFailures true c t (dedupedLinks links)).2 with
    | error er =>
        obtain ⟨u, hu, her, hunc⟩ := getFailures_warn_error hc hgf
        have hchk := check_eq_of_getFailures_error hgf
        simp only [LinkTester.runCheck, hchk] at hsig
        injection hsig with h2
        exact ⟨u, hu, by rw [← h2, her], by rw [← h2, her]; rfl, hunc⟩
    | ok fails =>
        have hchk := check_eq_of_getFailures_ok hgf
        simp only [if_true] at hchk
        simp [LinkTester.runCheck, hchk, BuildTest.test] at hsig
  · intro c t links sig hc hsig
    cases hgf : (getFailures false c t (dedupedLinks links)).2 with
    | error e =>
        obtain ⟨e', rfl⟩ := getFailures_error_transport hc hgf
        have hchk := check_eq_of_getFailures_error hgf
        simp only [LinkTester.runCheck, hchk] at hsig
        injection hsig with h2
        exact Or.inr ⟨e', by rw [← h2], by rw [← h2]; rfl⟩
    | ok fails =>
        have hchk := check_eq_of_getFailures_ok hgf
        simp only [Bool.false_eq_true, if_false] at hchk
        cases hemp : fails.isEmpty with
        | true =>
            rw [hemp] at hchk
            simp [LinkTester.runCheck, hchk, BuildTest.test] at hsig
        | false =>
            rw [hemp] at hchk
            simp [LinkTester.runCheck, hchk, BuildTest.test] at hsig
            exact Or.inl hsig.symm

/-- Witness for `caller_signal_classification`: a classified (timeout) url
under both policies, and a connection-failing url leaking raw through the
tolerant policy. -/
theorem caller_signal_classification_witness :
    ((okStub "u").uncaughtInWarnMode = false
      ∧ ∃ o, (fetch true okStub "u").2 = .ok o)
    ∧ ((∀ u ∈ dedupedLinks ["u"], (timeoutStub u).uncaughtInWarnMode = false)
      ∧ (LinkTester.runCheck true 16 timeoutStub ["u"]).2 = .ok ())
    ∧ (∃ u, u ∈ dedupedLinks ["u"]
      ∧ (.uncaughtRunError (.transport (.clientConnectorError "u")) :
            CallerSignal) =
          .uncaughtRunError (.transport (.clientConnectorError u))
      ∧ CallerSignal.isRawTransport
          (.uncaughtRunError (.transport (.clientConnectorError "u"))) = true
      ∧ (connStub u).uncaughtInWarnMode = true)
    ∧ ((.uncaughtRunError (.transport (.timeoutError "u")) : CallerSignal) =
          .buildTestFailure ∨
        ∃ e, (.uncaughtRunError (.transport (.timeoutError "u")) :
              CallerSignal) = .uncaughtRunError (.transport e) ∧
          CallerSignal.isRawTransport
            (.uncaughtRunError (.transport (.timeoutError "u"))) = true) := by
  have h := caller_signal_classification
  exact ⟨⟨rfl, h.1 okStub "u" rfl⟩,
    ⟨by decide, h.2.1 16 timeoutStub ["u"] (by decide) (by decide)⟩,
    h.2.2.1 16 connStub ["u"] _ (by decide) rfl,
    h.2.2.2 16 timeoutStub ["u"] _ (by decide) rfl⟩

/-- Successful `get_failures` exposes the gathered outcome list. -/
lemma getFailures_snd_ok {w : Bool} {c : Int} {t : Transport} {l : List String}
    {fails : List Response} (hnc : ¬ c < 0)
    (h : (getFailures w c t l).2 = .ok fails) :
    ∃ rs, collect ((l.map (fetch w t)).map Prod.snd) = .ok rs ∧
      fails = (rs.filterMap id).filter (fun r => r.status ≠ 200) := by
  simp only [getFailures, hnc, if_false] at h
  cases hcol : collect ((l.map (fetch w t)).map Prod.snd) with
  | error e => rw [hcol] at h; exact Except.noConfusion h
  | ok rs => rw [hcol] at h; injection h with h2; exact ⟨rs, rfl, h2.symm⟩

/-- A non-raising fetch records exactly its returned outcome. -/
lemma recorded_of_fetch_ok {w : Bool} {t : Transport} {u : String}
    {o : Option Response} (h : (fetch w t u).2 = .ok o) :
    recordedResponse w t u = o := by
  simp [recordedResponse, h]

/-- An intolerant fetch that did not raise hit no transport error. -/
lemma intolerable_false_of_fetch_ok {t : Transport} {u : String}
    {o : Option Response} (h : (fetch false t u).2 = .ok o) :
    intolerableTransportError false t u = false := by
  cases h' : t u
  case ok s => simp [intolerableTransportError, h']
  all_goals simp [fetch, h'] at h

/-- Counterexample to C1 as stated: in warn (tolerant) mode a url that
plainly responds 404 — a `Failure`, not a transport error — still yields an
aggregate result with `passed = true`. -/
theorem passed_true_despite_failure_in_warn_mode :
    LinkTester.check true 16 all404 ["b"] = (["b: 404"], .ok ⟨true, []⟩)
    ∧ producesFailure true all404 "b" = true
    ∧ "b" ∈ dedupedLinks ["b"]
    ∧ intolerableTransportError true all404 "b" = false := by
  exact ⟨rfl, rfl, by decide, rfl⟩

/-- C1 (amended): whenever a run returns an aggregate result, `passed` is
true iff the policy is tolerant or no checked url produced a `Failure`
(non-200 recorded response); no intolerable transport error occurred in any
completed run (intolerant runs abort on them instead); and in tolerant mode
`passed` is true while every recorded failure is emitted as an informational
warning line. -/
theorem aggregate_passed_characterization (w : Bool) (c : Int) (t : Transport)
    (links : List String) (warns : List String) (r : BuildTestResult)
    (h : LinkTester.check w c t links = (warns, .ok r)) :
    (r.passed = true ↔
      (w = true ∨ ∀ u ∈ dedupedLinks links, producesFailure w t u = false))
    ∧ (∀ u ∈ dedupedLinks links, intolerableTransportError w t u = false)
    ∧ (w = true →
        ∀ u ∈ dedupedLinks links, ∀ resp,
          recordedResponse true t u = some resp → resp.status ≠ 200 →
          diagLine resp ∈ warns) := by
  by_cases hcneg : c < 0
  · exfalso
    have hval : LinkTester.check w c t links = ([], .error .valueError) := by
      simp [LinkTester.check, getFailures, hcneg]
    rw [hval] at h
    exact Except.noConfusion (congrArg Prod.snd h)
  cases hgf : (getFailures w c t (dedupedLinks links)).2 with
  | error e =>
      exfalso
      rw [check_eq_of_getFailures_error hgf] at h
      exact Except.noConfusion (congrArg Prod.snd h)
  | ok fails =>
      have hchk := check_eq_of_getFailures_ok hgf
      obtain ⟨rs, hcol, hfails⟩ := getFailures_snd_ok hcneg hgf
      have hes : (dedupedLinks links).map (Prod.snd ∘ fetch w t) =
          rs.map Except.ok := by
        have h4 := collect_eq_ok hcol
        rwa [List.map_map] at h4
      have hA : ∀ u ∈ dedupedLinks links, ∃ o, o ∈ rs ∧
          (fetch w t u).2 = .ok o := by
        intro u hu
        have hmem : (Prod.snd ∘ fetch w t) u ∈
            (dedupedLinks links).map (Prod.snd ∘ fetch w t) :=
          List.mem_map.mpr ⟨u, hu, rfl⟩
        rw [hes] at hmem
        obtain ⟨o, ho, heq⟩ := List.mem_map.mp hmem
        exact ⟨o, ho, heq.symm⟩
      have hB : ∀ o ∈ rs, ∃ u, u ∈ dedupedLinks links ∧
          recordedResponse w t u = o := by
        intro o ho
        have hmem : (Except.ok o : Except TransportErr (Option Response)) ∈
            rs.map Except.ok :=
          List.mem_map.mpr ⟨o, ho, rfl⟩
        rw [← hes] at hmem
        obtain ⟨u, hu, heq⟩ := List.mem_map.mp hmem
        exact ⟨u, hu, recorded_of_fetch_ok heq⟩
      cases w with
      | true =>
          simp only [if_true] at hchk
          rw [hchk] at h
          have hwarns : warns = fails.map diagLine := (congrArg Prod.fst h).symm
          have hr : r = ⟨true, []⟩ := by
            have h1 := congrArg Prod.snd h
            simp only at h1
            injection h1 with h2
            exact h2.symm
          refine ⟨by simp [hr], fun u hu => by simp [intolerableTransportError],
            ?_⟩
          intro _ u hu resp hrec hstat
          obtain ⟨o, ho, hfok⟩ := hA u hu
          have hro := recorded_of_fetch_ok hfok
          have ho2 : o = some resp := hro.symm.trans hrec
          subst ho2
          have hmem : resp ∈ fails := by
            rw [hfails]
            refine List.mem_filter.mpr ⟨?_, decide_eq_true hstat⟩
            exact List.mem_filterMap.mpr ⟨some resp, ho, rfl⟩
          rw [hwarns]
          exact List.mem_map.mpr ⟨resp, hmem, rfl⟩
      | false =>
          simp only [Bool.false_eq_true, if_false] at hchk
          rw [hchk] at h
          have hr : r = ⟨fails.isEmpty, fails.map diagLine⟩ := by
            have h2 := congrArg Prod.snd h
            simp only at h2
            injection h2 with h3
            exact h3.symm
          refine ⟨?_, ?_, by intro hw; cases hw⟩
          · rw [hr]
            simp only [Bool.false_eq_true, false_or]
            constructor
            · intro hempty u hu
              have hnil : fails = [] := by
                simpa using hempty
              obtain ⟨o, ho, hfok⟩ := hA u hu
              have hrec := recorded_of_fetch_ok hfok
              cases o with
              | none => simp [producesFailure, hrec]
              | some resp =>
                  simp only [producesFailure, hrec]
                  by_cases hs : resp.status = 200
                  · simp [hs]
                  · exfalso
                    have hmem : resp ∈ fails := by
                      rw [hfails]
                      refine List.mem_filter.mpr ⟨?_, decide_eq_true hs⟩
                      exact List.mem_filterMap.mpr ⟨some resp, ho, rfl⟩
                    rw [hnil] at hmem
                    cases hmem
            · intro hall
              have hnil : fails = [] := by
                rw [hfails]
                rw [List.eq_nil_iff_forall_not_mem]
                intro resp hresp
                obtain ⟨hfm, hp⟩ := List.mem_filter.mp hresp
                obtain ⟨o, ho, hid⟩ := List.mem_filterMap.mp hfm
                obtain ⟨u, hu, hrec⟩ := hB o ho
                have hpf := hall u hu
                have ho2 : o = some resp := hid
                rw [ho2] at hrec
                simp only [producesFailure, hrec] at hpf
                exact absurd (of_decide_eq_true hp) (by simpa using hpf)
              simp [hnil]
          · intro u hu
            obtain ⟨o, ho, hfok⟩ := hA u hu
            exact intolerable_false_of_fetch_ok hfok

/-- Witness for `aggregate_passed_characterization` on a concrete tolerant
run whose only url records a 404. -/
theorem aggregate_passed_characterization_witness :
    LinkTester.check true 16 all404 ["b"] = (["b: 404"], .ok ⟨true, []⟩)
    ∧ (⟨true, []⟩ : BuildTestResult).passed = true := by
  have h := aggregate_passed_characterization true 16 all404 ["b"]
    (["b: 404"]) ⟨true, []⟩ rfl
  exact ⟨rfl, h.1.mpr (Or.inl rfl)⟩

/-- Slot-filling invariant: once every slot below `tasks.length` is either
still scheduled or already holds its task's value, running the remaining
completions yields the full result list in task order. -/
lemma fill_foldl_eq {α : Type} (tasks : List α) :
    ∀ (order : List Nat) (acc : List (Option α)),
      acc.length = tasks.length →
      (∀ j, j < tasks.length → j ∈ order ∨ acc[j]? = some tasks[j]?) →
      order.foldl (fun a i => a.set i tasks[i]?) acc = tasks.map some := by
  intro order
  induction order with
  | nil =>
      intro acc hlen hinv
      simp only [List.foldl_nil]
      apply List.ext_getElem?
      intro j
      by_cases hj : j < tasks.length
      · rcases hinv j hj with hmem | hset
        · cases hmem
        · rw [hset, List.getElem?_map, List.getElem?_eq_getElem hj]
          rfl
      · have h1 : acc[j]? = none :=
          List.getElem?_eq_none (by rw [hlen]; exact le_of_not_lt hj)
        have h2 : (tasks.map some)[j]? = none :=
          List.getElem?_eq_none (by rw [List.length_map]; exact le_of_not_lt hj)
        rw [h1, h2]
  | cons i rest ih =>
      intro acc hlen hinv
      simp only [List.foldl_cons]
      apply ih
      · rw [List.length_set]; exact hlen
      · intro j hj
        by_cases hij : j = i
        · subst hij
          exact Or.inr
            (List.getElem?_set_eq_of_lt _ (by rw [hlen]; exact hj))
        · rcases hinv j hj with hmem | hset
          · rcases List.mem_cons.mp hmem with heq | hmem'
            · exact absurd heq hij
            · exact Or.inl hmem'
          · exact Or.inr ((List.getElem?_set_ne (Ne.symm hij)).trans hset)

/-- When the completion order covers every task, `gather`'s slot-filling
returns all task values in argument order. -/
lemma fillByOrder_eq_of_cover {α : Type} (tasks : List α) (order : List Nat)
    (hcov : ∀ j, j < tasks.length → j ∈ order) :
    fillByOrder tasks order = tasks.map some := by
  apply fill_foldl_eq
  · exact List.length_replicate ..
  · intro j hj
    exact Or.inl (hcov j hj)

/-- A run with an explicit completion order covering all tasks coincides
with the order-free engine. -/
lemma checkWithOrder_eq_check (w : Bool) (c : Int) (t : Transport)
    (links : List String) (order : List Nat)
    (hcov : ∀ j, j < (dedupedLinks links).length → j ∈ order) :
    LinkTester.checkWithOrder w c t links order =
      LinkTester.check w c t links := by
  by_cases hc : c < 0
  · simp [LinkTester.checkWithOrder, LinkTester.check, getFailures, hc]
  · unfold LinkTester.checkWithOrder LinkTester.check getFailures
    simp only [hc, if_false]
    have hfill : fillByOrder
        ((dedupedLinks links).map (fun u => (fetch w t u).2)) order =
        ((dedupedLinks links).map (fun u => (fetch w t u).2)).map some := by
      apply fillByOrder_eq_of_cover
      intro j hj
      exact hcov j (by simpa using hj)
    rw [hfill]
    simp only [List.map_map, Function.comp_def, Option.getD_some]
    cases hcol : collect
        ((dedupedLinks links).map (fun u => (fetch w t u).2)) with
    | error e => simp [hcol, Function.comp_def]
    | ok rs => simp [hcol, Function.comp_def]

/-- C7: for any two event-loop completion orders of the gathered fetches,
the engine produces identical aggregate results — the same `passed` value
and the same diagnostics in the same deterministic order — and either run
equals the order-free engine, so repeating a run on the same url set and
transport stub reproduces it exactly. -/
theorem run_independent_of_completion_order (w : Bool) (c : Int)
    (t : Transport) (links : List String) (o₁ o₂ : List Nat)
    (h₁ : o₁.Perm (List.range (dedupedLinks links).length))
    (h₂ : o₂.Perm (List.range (dedupedLinks links).length)) :
    LinkTester.checkWithOrder w c t links o₁ =
        LinkTester.checkWithOrder w c t links o₂
    ∧ LinkTester.checkWithOrder w c t links o₁ =
        LinkTester.check w c t links := by
  have hcov : ∀ (o : List Nat),
      o.Perm (List.range (dedupedLinks links).length) →
      ∀ j, j < (dedupedLinks links).length → j ∈ o := by
    intro o hp j hj
    exact hp.mem_iff.mpr (List.mem_range.mpr hj)
  have e1 := checkWithOrder_eq_check w c t links o₁ (hcov o₁ h₁)
  have e2 := checkWithOrder_eq_check w c t links o₂ (hcov o₂ h₂)
  exact ⟨e1.trans e2.symm, e1⟩

/-- Witness for `run_independent_of_completion_order`: the two possible
completion orders of a two-url run agree with each other and with the
order-free engine. -/
theorem run_independent_of_completion_order_witness :
    ([1, 0].Perm (List.range (dedupedLinks ["A", "B"]).length)
      ∧ [0, 1].Perm (List.range (dedupedLinks ["A", "B"]).length))
    ∧ LinkTester.checkWithOrder false 16 stub404 ["A", "B"] [1, 0] =
        LinkTester.checkWithOrder false 16 stub404 ["A", "B"] [0, 1]
    ∧ LinkTester.checkWithOrder false 16 stub404 ["A", "B"] [1, 0] =
        LinkTester.check false 16 stub404 ["A", "B"] := by
  have hp1 : [1, 0].Perm (List.range (dedupedLinks ["A", "B"]).length) := by
    decide
  have hp2 : [0, 1].Perm (List.range (dedupedLinks ["A", "B"]).length) := by
    decide
  have h := run_independent_of_completion_order false 16 stub404 ["A", "B"]
    [1, 0] [0, 1] hp1 hp2
  exact ⟨⟨hp1, hp2⟩, h.1, h.2⟩

end QA
